import Mathlib

/-
Verification of the OAuth session + paginated bulk-delete workflow of
go_and_delete.go (Bulk_GitRepo_Remover).

The embedding follows the Go source. Go strings are modelled as Lean
String (a list of Char), the process-wide `githubClient` pointer as a
`Session` value, the GitHub provider as an explicit oracle argument, and
the library's HTTP responses as small inductive types. Calls that
terminate the process (log.Fatalf) or panic (index out of range, nil
pointer dereference) are made explicit constructors of the result types.
-/

namespace GoAndDelete

/-- Go strings.Split specialized to a one-character separator, acting on the
character list of the string. Mirrors the contract of strings.Split: the
empty string yields one empty field, and every occurrence of the separator
starts a new field. Used by deleteHandler via strings.Split(repo, "/"). -/
def stringsSplit (sep : Char) : List Char → List (List Char)
  | [] => [[]]
  | c :: rest =>
    match stringsSplit sep rest with
    | [] => [[]]
    | h :: t => if c = sep then [] :: h :: t else (c :: h) :: t

/-- Joins character-list segments with a slash. Used only to state, in the
spec's words, "the name is everything after the first separator". -/
def joinSlash : List (List Char) → List Char
  | [] => []
  | [p] => p
  | p :: ps => p ++ '/' :: joinSlash ps

/-- The identifier split performed by deleteHandler (go_and_delete.go lines
155-156): parts := strings.Split(repo, "/"); owner, repoName := parts[0],
parts[1]. When the split yields fewer than two fields, the Go code indexes
parts[1] out of range and panics; that case is modelled as none. -/
def splitRepo (repo : String) : Option (String × String) :=
  match stringsSplit '/' repo.data with
  | p0 :: p1 :: _ => some (⟨p0⟩, ⟨p1⟩)
  | _ => none

/-- Modelled from the spec's words (section 4.5 step 1), for comparison with
splitRepo: the identifier is split at the first separator only, the owner is
everything before it and the name is everything after it; an identifier
without a separator is a MalformedIdentifier failure, modelled as none. -/
def splitRepoSpec (repo : String) : Option (String × String) :=
  match stringsSplit '/' repo.data with
  | [] => none
  | [_] => none
  | p0 :: rest => some (⟨p0⟩, ⟨joinSlash rest⟩)

/-- Values of the decoded token-endpoint JSON object. The Go code decodes
into map[string]interface{} and then performs the type assertion
result["access_token"].(string); only stringness of a field matters. -/
inductive JsonValue where
  | str (s : String)
  | num (n : Int)
  | null
deriving DecidableEq

/-- Lookup in the decoded response object, modelling result["access_token"].
Go maps have unique keys, so an association list lookup is faithful. -/
def lookupJson (result : List (String × JsonValue)) (key : String) : Option JsonValue :=
  (result.find? (fun kv => kv.1 == key)).map (fun kv => kv.2)

/-- The type assertion v.(string) on an optional JSON value: succeeds exactly
when the field is present and is a string. -/
def asString : Option JsonValue → Option String
  | some (JsonValue.str s) => some s
  | _ => none

/-- Outcome of exchangeCodeForToken. log.Fatalf terminates the whole process;
it is modelled by the fatal constructor, never returned to the caller. -/
inductive ExchangeOutcome where
  | token (t : String)
  | fatal (msg : String)
deriving DecidableEq

/-- exchangeCodeForToken (go_and_delete.go lines 175-198). The input models
the provider's response: none when the POST to the token endpoint fails
(client.Do returns an error), some m for the decoded JSON object (a failed
decode leaves the map empty). On a transport error the Go code calls
log.Fatalf("Failed to get token: ..."); when the access_token field is
absent or not a string it calls log.Fatalf("Failed to extract access
token: ..."); both terminate the process. -/
def exchangeCodeForToken (resp : Option (List (String × JsonValue))) : ExchangeOutcome :=
  match resp with
  | none => ExchangeOutcome.fatal "Failed to get token"
  | some result =>
    match asString (lookupJson result "access_token") with
    | some token => ExchangeOutcome.token token
    | none => ExchangeOutcome.fatal "Failed to extract access token"

/-- Whether the exchange outcome is a process termination via log.Fatalf. -/
def isFatal : ExchangeOutcome → Bool
  | ExchangeOutcome.fatal _ => true
  | ExchangeOutcome.token _ => false

/-- The process-wide session: the githubClient package variable. nil is
unauthenticated; a non-nil client is an authenticated handle bound to the
access token it was constructed from (callbackHandler lines 141-146). -/
inductive Session where
  | unauthenticated
  | authenticated (token : String)
deriving DecidableEq

/-- isAuthenticated: githubClient != nil. -/
def isAuthenticated : Session → Bool
  | Session.unauthenticated => false
  | Session.authenticated _ => true

/-- Observable result of callbackHandler: an HTTP client error, a redirect
to the home page, or process termination raised inside the exchange. -/
inductive CallbackResult where
  | clientError (msg : String) (status : Nat)
  | redirectHome
  | fatalExit (msg : String)
deriving DecidableEq

/-- callbackHandler (go_and_delete.go lines 134-149). The code argument is
r.URL.Query().Get("code"), which is the empty string when the parameter is
absent; in that case the handler responds "Code not found" with status 400
and returns without touching the session. Otherwise it exchanges the code
and unconditionally replaces the session with a client bound to the token. -/
def callbackHandler (code : String) (resp : Option (List (String × JsonValue)))
    (s : Session) : CallbackResult × Session :=
  if code = "" then (CallbackResult.clientError "Code not found" 400, s)
  else
    match exchangeCodeForToken resp with
    | ExchangeOutcome.token t => (CallbackResult.redirectHome, Session.authenticated t)
    | ExchangeOutcome.fatal m => (CallbackResult.fatalExit m, s)

/-- logoutHandler (go_and_delete.go lines 200-204): githubClient = nil,
unconditionally. -/
def logoutHandler (s : Session) : Session := Session.unauthenticated

/-- The provider's answer to one Repositories.Delete call, as seen by
deleteHandler: success, an HTTP error response carrying a status code (the
go-github ErrorResponse case), or a non-HTTP error with only a message. -/
inductive ProviderDeleteResponse where
  | ok
  | httpError (status : Nat) (msg : String)
  | transportError (msg : String)
deriving DecidableEq

/-- Per-item outcome reported by deleteHandler for one identifier. -/
inductive DeleteResult where
  | Deleted (repo : String)
  | Forbidden (repo : String)
  | OtherError (repo : String) (msg : String)
deriving DecidableEq

/-- The classification in deleteHandler lines 160-169: an error that is a
github.ErrorResponse with StatusCode 403 yields the admin-rights message;
any other error yields the generic message with the error's text; no error
yields Deleted. -/
def classify (repo : String) (resp : ProviderDeleteResponse) : DeleteResult :=
  match resp with
  | ProviderDeleteResponse.ok => DeleteResult.Deleted repo
  | ProviderDeleteResponse.httpError status msg =>
    if status = 403 then DeleteResult.Forbidden repo else DeleteResult.OtherError repo msg
  | ProviderDeleteResponse.transportError msg => DeleteResult.OtherError repo msg

/-- The exact line deleteHandler writes for one outcome (fmt.Fprintf
formats at lines 163, 166, 169). -/
def renderResult : DeleteResult → String
  | DeleteResult.Deleted repo => "Deleted: " ++ repo ++ "<br>"
  | DeleteResult.Forbidden repo =>
    "Failed to delete " ++ repo ++ ": You must have admin rights to delete this repository.<br>"
  | DeleteResult.OtherError repo msg => "Failed to delete " ++ repo ++ ": " ++ msg ++ "<br>"

/-- The identifier a DeleteResult reports about. -/
def deleteResultRepo : DeleteResult → String
  | DeleteResult.Deleted repo => repo
  | DeleteResult.Forbidden repo => repo
  | DeleteResult.OtherError repo _ => repo

/-- The two runtime panics the delete loop can raise: parts[1] on a
one-field split (line 156), and the nil githubClient dereference at the
Repositories.Delete call (line 159). -/
inductive PanicCause where
  | indexOutOfRange
  | nilClientDereference
deriving DecidableEq

/-- One iteration of the deleteHandler loop body (lines 154-170), in source
order: first the split and the parts[1] index, then the method call on the
possibly-nil githubClient, then the delete request and its classification. -/
def deleteItem (s : Session) (provider : String → String → ProviderDeleteResponse)
    (repo : String) : Except PanicCause DeleteResult :=
  match splitRepo repo with
  | none => Except.error PanicCause.indexOutOfRange
  | some (owner, name) =>
    match s with
    | Session.unauthenticated => Except.error PanicCause.nilClientDereference
    | Session.authenticated _ => Except.ok (classify repo (provider owner name))

/-- Result of running the whole loop: either it finishes with one outcome
per identifier, or it panics after having written a prefix of outcomes. -/
inductive DeleteExecution where
  | finished (results : List DeleteResult)
  | panicked (done : List DeleteResult) (cause : PanicCause)
deriving DecidableEq

/-- deleteHandler (go_and_delete.go lines 151-173): iterate over the posted
identifiers strictly in order, one provider call each; a panic aborts the
request, keeping the outcomes already written. -/
def deleteHandler (s : Session) (provider : String → String → ProviderDeleteResponse) :
    List String → DeleteExecution
  | [] => DeleteExecution.finished []
  | repo :: rest =>
    match deleteItem s provider repo with
    | Except.error c => DeleteExecution.panicked [] c
    | Except.ok res =>
      match deleteHandler s provider rest with
      | DeleteExecution.finished rs => DeleteExecution.finished (res :: rs)
      | DeleteExecution.panicked rs c => DeleteExecution.panicked (res :: rs) c

/-- A provider that deletes every repository successfully. -/
def alwaysOk : String → String → ProviderDeleteResponse := fun _ _ => ProviderDeleteResponse.ok

/-- The provider of the spec's bulk-delete scenario: alice's repository is
denied with 403, everything else is deleted. -/
def scenarioProvider : String → String → ProviderDeleteResponse :=
  fun owner _ =>
    if owner = "alice" then ProviderDeleteResponse.httpError 403 "Must have admin rights"
    else ProviderDeleteResponse.ok

/-- The digit run scanned by fmt.Sscanf's %d verb: takes the leading decimal
digits; fails when there is none. -/
def scanNatDigits (cs : List Char) : Option Nat :=
  let digits := cs.takeWhile Char.isDigit
  if digits.isEmpty then none
  else some (digits.foldl (fun acc c => acc * 10 + (c.toNat - 48)) 0)

/-- fmt.Sscanf(p, "%d", &page). In the Scanf family non-newline white space
is skipped, but a newline in the input must match a newline in the format;
the format here has none, so a leading newline is the "unexpected newline"
scan error. The %d verb then accepts an optional sign and decimal digits
and parses the signed token with strconv.ParseInt(tok, 10, 64), which
fails outside the int64 range [-9223372036854775808, 9223372036854775807].
none models any scan error, in which case Sscanf leaves the variable
untouched; anything after the digits is ignored. -/
def scanInt (cs : List Char) : Option Int :=
  match cs.dropWhile (fun c => c == ' ' || c == '\t' || c == '\r' || c == '\x0b' || c == '\x0c') with
  | '\n' :: _ => none
  | '-' :: rest =>
    (scanNatDigits rest).bind (fun n =>
      if n ≤ 9223372036854775808 then some (-(n : Int)) else none)
  | '+' :: rest =>
    (scanNatDigits rest).bind (fun n =>
      if n ≤ 9223372036854775807 then some ((n : Int)) else none)
  | cs' =>
    (scanNatDigits cs').bind (fun n =>
      if n ≤ 9223372036854775807 then some ((n : Int)) else none)

/-- The page computation of homeHandler (go_and_delete.go lines 89-92):
page := 1; if the query parameter is non-empty, Sscanf "%d" overwrites it
when and only when the scan succeeds. The empty string models an absent
parameter, exactly as r.URL.Query().Get returns it. -/
def parsePage (p : String) : Int :=
  if p = "" then 1
  else
    match scanInt p.data with
    | some n => n
    | none => 1

/-- github.ListOptions as filled in by homeHandler. -/
structure ListOptions where
  perPage : Int
  page : Int
deriving DecidableEq

/-- The listing options homeHandler passes to Repositories.List (lines
94-96): PerPage 10 and the parsed page. -/
def homeListOptions (p : String) : ListOptions :=
  { perPage := 10, page := parsePage p }

/-- The template data homeHandler builds (lines 109-123). -/
structure PageData where
  repos : List String
  hasPrev : Bool
  hasNext : Bool
  prevPage : Nat
  nextPage : Nat
  isLoggedIn : Bool
deriving DecidableEq

/-- Construction of the template data from the provider's page indicators
(lines 117-122): HasPrev is resp.PrevPage > 0 and HasNext is
resp.NextPage > 0. The indicators are page numbers parsed from the
provider's Link header, non-negative with 0 meaning "no such page", so they
are modelled as Nat. At this point in homeHandler the client is known
non-nil, so IsLoggedIn is true. -/
def mkPageData (repoNames : List String) (prevPage nextPage : Nat) : PageData :=
  { repos := repoNames
    hasPrev := decide (0 < prevPage)
    hasNext := decide (0 < nextPage)
    prevPage := prevPage
    nextPage := nextPage
    isLoggedIn := true }

/-- The startup configuration read from the process environment
(go_and_delete.go lines 17-21). -/
structure Config where
  clientID : String
  clientSecret : String
  redirectURI : String
deriving DecidableEq

/-- os.Getenv: the empty string when the variable is unset. -/
def osGetenv (env : String → Option String) (key : String) : String :=
  (env key).getD ""

/-- The package-level configuration initialization: clientID and
clientSecret from the environment, a fixed redirect URI. -/
def loadConfig (env : String → Option String) : Config :=
  { clientID := osGetenv env "OAUTH_CLIENT_ID"
    clientSecret := osGetenv env "OAUTH_CLIENT_SECRET"
    redirectURI := "http://localhost:8989/callback" }

/-- Whether main reaches ListenAndServe for a given configuration. main
(go_and_delete.go lines 72-81) registers the five handlers and serves
unconditionally; no branch of main inspects the configuration, so the
function is constantly true. -/
def mainStartsServing (cfg : Config) : Bool := true

/-- The authorize URL loginHandler builds (line 130) by fmt.Sprintf from
the configured client ID and redirect URI. -/
def buildAuthorizationURL (cfg : Config) : String :=
  "https://github.com/login/oauth/authorize?client_id=" ++ cfg.clientID ++
    "&scope=repo,delete_repo&redirect_uri=" ++ cfg.redirectURI

/-- An environment with no variables set. -/
def emptyEnv : String → Option String := fun _ => none

/-- strings.Split never returns an empty slice. -/
theorem stringsSplit_ne_nil (sep : Char) (cs : List Char) : stringsSplit sep cs ≠ [] := by
  induction cs with
  | nil => simp [stringsSplit]
  | cons c rest ih =>
    simp only [stringsSplit]
    cases hs : stringsSplit sep rest with
    | nil => simp
    | cons a t => by_cases hc : c = sep <;> simp [hc]

/-- On a string without the separator, strings.Split returns the single
field holding the whole string. -/
theorem stringsSplit_no_sep (sep : Char) (cs : List Char) (h : sep ∉ cs) :
    stringsSplit sep cs = [cs] := by
  induction cs with
  | nil => rfl
  | cons c rest ih =>
    have hc : ¬ c = sep := fun e => h (List.mem_cons.mpr (Or.inl e.symm))
    have hr : sep ∉ rest := fun hm => h (List.mem_cons_of_mem _ hm)
    simp only [stringsSplit, ih hr]
    simp [hc]

/-- Splitting o ++ sep :: rest, with o separator-free, peels off o as the
first field. -/
theorem stringsSplit_append (sep : Char) (o rest : List Char) (ho : sep ∉ o) :
    stringsSplit sep (o ++ sep :: rest) = o :: stringsSplit sep rest := by
  induction o with
  | nil =>
    simp only [List.nil_append, stringsSplit]
    cases hs : stringsSplit sep rest with
    | nil => exact absurd hs (stringsSplit_ne_nil sep rest)
    | cons a t => simp
  | cons c o ih =>
    have hc : ¬ c = sep := fun e => ho (List.mem_cons.mpr (Or.inl e.symm))
    have ho2 : sep ∉ o := fun hm => ho (List.mem_cons_of_mem _ hm)
    simp only [List.cons_append, stringsSplit, List.append_eq]
    rw [ih ho2]
    simp [hc]

/-- The first field of strings.Split is the run of characters before the
first separator. -/
theorem stringsSplit_head (sep : Char) (cs : List Char) :
    ∃ t, stringsSplit sep cs = cs.takeWhile (fun c => c != sep) :: t := by
  induction cs with
  | nil => exact ⟨[], rfl⟩
  | cons c rest ih =>
    obtain ⟨t, ht⟩ := ih
    by_cases hc : c = sep
    · subst hc
      refine ⟨rest.takeWhile (fun x => x != c) :: t, ?_⟩
      simp only [stringsSplit, ht]
      simp [List.takeWhile_cons]
    · refine ⟨t, ?_⟩
      simp only [stringsSplit, ht]
      simp [List.takeWhile_cons, hc]

/-- Splitting a string containing the separator yields at least two fields. -/
theorem stringsSplit_length_ge_two (sep : Char) :
    ∀ cs : List Char, sep ∈ cs → 2 ≤ (stringsSplit sep cs).length := by
  intro cs
  induction cs with
  | nil => intro h; cases h
  | cons c rest ih =>
    intro h
    simp only [stringsSplit]
    cases hs : stringsSplit sep rest with
    | nil => exact absurd hs (stringsSplit_ne_nil sep rest)
    | cons a t =>
      by_cases hc : c = sep
      · simp [hc]
      · have hm : sep ∈ rest := by
          cases List.mem_cons.mp h with
          | inl e => exact absurd e.symm hc
          | inr m => exact m
        have h2 := ih hm
        rw [hs] at h2
        simp only [List.length_cons] at h2
        simp [hc]
        omega

/-- What the Go split assigns for a well-formed identifier: the owner is the
text before the first slash, but the name is only the field between the
first and second slash. -/
theorem splitRepo_first_two (o rest : List Char) (ho : ('/' : Char) ∉ o) :
    splitRepo ⟨o ++ '/' :: rest⟩ =
      some (⟨o⟩, ⟨rest.takeWhile (fun c => c != '/')⟩) := by
  obtain ⟨t, ht⟩ := stringsSplit_head '/' rest
  have hdata : (String.mk (o ++ '/' :: rest)).data = o ++ '/' :: rest := rfl
  unfold splitRepo
  rw [hdata, stringsSplit_append '/' o rest ho, ht]

/-- An identifier containing a slash splits without panicking. -/
theorem splitRepo_eq_some (repo : String) (h : ('/' : Char) ∈ repo.data) :
    ∃ o n, splitRepo repo = some (o, n) := by
  have h2 := stringsSplit_length_ge_two '/' repo.data h
  cases hs : stringsSplit '/' repo.data with
  | nil =>
    rw [hs] at h2
    simp at h2
  | cons p0 t =>
    cases t with
    | nil =>
      rw [hs] at h2
      simp at h2
    | cons p1 t2 =>
      refine ⟨⟨p0⟩, ⟨p1⟩, ?_⟩
      unfold splitRepo
      rw [hs]

/-- With an authenticated session, one loop iteration performs the provider
call on the split owner and name and classifies its outcome. -/
theorem deleteItem_authenticated (tok : String)
    (provider : String → String → ProviderDeleteResponse) (repo : String)
    (h : ('/' : Char) ∈ repo.data) :
    ∃ o n, splitRepo repo = some (o, n) ∧
      deleteItem (Session.authenticated tok) provider repo =
        Except.ok (classify repo (provider o n)) := by
  obtain ⟨o, n, hs⟩ := splitRepo_eq_some repo h
  refine ⟨o, n, hs, ?_⟩
  unfold deleteItem
  rw [hs]

/-- Classification never changes which identifier the outcome is about. -/
theorem deleteResultRepo_classify (repo : String) (resp : ProviderDeleteResponse) :
    deleteResultRepo (classify repo resp) = repo := by
  cases resp with
  | ok => rfl
  | httpError status msg =>
    simp only [classify]
    split <;> rfl
  | transportError msg => rfl

/-- Claim C1, counterexample: on the identifier "a/b/c" the code takes the
name to be "b", the field between the first and second slash, while the
claim says the name is everything after the first slash, "b/c". -/
theorem C1_counterexample :
    splitRepo "a/b/c" = some ("a", "b") ∧
    splitRepoSpec "a/b/c" = some ("a", "b/c") ∧
    splitRepo "a/b/c" ≠ splitRepoSpec "a/b/c" := by decide

/-- Claim C1, amended: deleteHandler splits each identifier on every slash
and takes owner := parts[0] and name := parts[1], so the owner is the text
before the first slash but the name is only the text between the first and
second slash; an identifier containing no slash makes parts[1] an
out-of-range index, a panic that aborts the request, not a per-item
MalformedIdentifier error. -/
theorem C1_amended (o rest w : List Char) (ho : ('/' : Char) ∉ o)
    (hw : ('/' : Char) ∉ w) :
    splitRepo ⟨o ++ '/' :: rest⟩ =
      some (⟨o⟩, ⟨rest.takeWhile (fun c => c != '/')⟩) ∧
    ∀ s provider, deleteItem s provider ⟨w⟩ = Except.error PanicCause.indexOutOfRange := by
  refine ⟨splitRepo_first_two o rest ho, ?_⟩
  intro s provider
  have hnone : splitRepo ⟨w⟩ = none := by
    unfold splitRepo
    rw [show (String.mk w).data = w from rfl, stringsSplit_no_sep '/' w hw]
  unfold deleteItem
  rw [hnone]

/-- Claim C1, witness for the amended statement at the identifiers "a/b/c"
and "noslash". -/
theorem C1_witness :
    splitRepo (String.mk ("a".data ++ '/' :: "b/c".data)) =
      some (String.mk "a".data, String.mk (("b/c".data).takeWhile (fun c => c != '/'))) ∧
    deleteItem Session.unauthenticated alwaysOk (String.mk "noslash".data) =
      Except.error PanicCause.indexOutOfRange :=
  ⟨(C1_amended "a".data "b/c".data "noslash".data (by decide) (by decide)).1,
   (C1_amended "a".data "b/c".data "noslash".data (by decide) (by decide)).2
     Session.unauthenticated alwaysOk⟩

/-- Claim C2, counterexample: when the token endpoint is unreachable (the
POST fails), exchangeCodeForToken reaches log.Fatalf and terminates the
process; it does not return a recoverable TokenExchangeFailed error to the
caller. -/
theorem C2_counterexample :
    exchangeCodeForToken none = ExchangeOutcome.fatal "Failed to get token" ∧
    isFatal (exchangeCodeForToken none) = true :=
  ⟨rfl, rfl⟩

/-- Claim C2, amended: the exchange terminates the process via log.Fatalf
exactly when the token endpoint is unreachable or the decoded payload has
no string access_token field; only a payload with a string access_token
returns a token, and no failure is returned to the caller as a recoverable
error. -/
theorem C2_amended (resp : Option (List (String × JsonValue))) :
    (resp = none → exchangeCodeForToken resp = ExchangeOutcome.fatal "Failed to get token") ∧
    (∀ result, resp = some result → asString (lookupJson result "access_token") = none →
      exchangeCodeForToken resp = ExchangeOutcome.fatal "Failed to extract access token") ∧
    (∀ result tok, resp = some result →
      asString (lookupJson result "access_token") = some tok →
      exchangeCodeForToken resp = ExchangeOutcome.token tok) ∧
    (isFatal (exchangeCodeForToken resp) = true ↔
      resp = none ∨ ∃ result, resp = some result ∧
        asString (lookupJson result "access_token") = none) := by
  refine ⟨?_, ?_, ?_, ?_⟩
  · rintro rfl
    rfl
  · rintro result rfl hnone
    simp only [exchangeCodeForToken]
    rw [hnone]
  · rintro result tok rfl hsome
    simp only [exchangeCodeForToken]
    rw [hsome]
  · cases resp with
    | none => simp [exchangeCodeForToken, isFatal]
    | some result =>
      cases hA : asString (lookupJson result "access_token") with
      | none => simp [exchangeCodeForToken, isFatal, hA]
      | some tok => simp [exchangeCodeForToken, isFatal, hA]

/-- Claim C2, witness: a payload with access_token "tok_1" yields the token,
and a payload carrying only an error field reaches the fatal extraction
branch. -/
theorem C2_witness :
    exchangeCodeForToken (some [("access_token", JsonValue.str "tok_1")]) =
      ExchangeOutcome.token "tok_1" ∧
    exchangeCodeForToken (some [("error", JsonValue.str "bad_code")]) =
      ExchangeOutcome.fatal "Failed to extract access token" :=
  ⟨(C2_amended (some [("access_token", JsonValue.str "tok_1")])).2.2.1
      [("access_token", JsonValue.str "tok_1")] "tok_1" rfl (by decide),
   (C2_amended (some [("error", JsonValue.str "bad_code")])).2.1
      [("error", JsonValue.str "bad_code")] rfl (by decide)⟩

/-- Claim C3, counterexample: the page input "-5" is numeric and ≤ 0, yet
homeHandler scans it successfully and passes page -5 to the provider, so
the options differ from those of page input "1"; input ≤ 0 is not
normalized to the default page 1. -/
theorem C3_counterexample :
    scanInt "-5".data = some (-5) ∧ (-5 : Int) ≤ 0 ∧
    homeListOptions "-5" ≠ homeListOptions "1" := by decide

/-- Claim C3, amended: an absent page parameter or one on which the %d scan
fails — non-numeric input, a leading newline, or a token outside the int64
range — is normalized to the default page 1, but any successfully scanned
integer, including 0 and negative values, is passed to the provider
as-is. -/
theorem C3_amended (p : String) :
    homeListOptions "" = { perPage := 10, page := 1 } ∧
    (scanInt p.data = none → homeListOptions p = homeListOptions "1") ∧
    (∀ n : Int, p ≠ "" → scanInt p.data = some n → (homeListOptions p).page = n) := by
  have h1 : parsePage "1" = 1 := by decide
  refine ⟨rfl, ?_, ?_⟩
  · intro hnone
    by_cases hp : p = ""
    · subst hp
      decide
    · unfold homeListOptions
      rw [h1]
      unfold parsePage
      rw [if_neg hp, hnone]
  · intro n hp hsome
    show parsePage p = n
    unfold parsePage
    rw [if_neg hp, hsome]

/-- Claim C3, witness for the amended statement: non-numeric input "abc"
and the int64-overflowing input "99999999999999999999" behave like page 1,
while "-7" is passed through as page -7. -/
theorem C3_witness :
    homeListOptions "abc" = homeListOptions "1" ∧
    homeListOptions "99999999999999999999" = homeListOptions "1" ∧
    (homeListOptions "-7").page = -7 :=
  ⟨(C3_amended "abc").2.1 (by decide),
   (C3_amended "99999999999999999999").2.1 (by decide),
   (C3_amended "-7").2.2 (-7) (by decide) (by decide)⟩

/-- Claim C4, counterexample: for the input sequence ["noslash"] the loop
panics on the parts[1] index before producing any outcome, so it yields
zero DeleteResults for one input identifier instead of exactly one. -/
theorem C4_counterexample :
    deleteHandler (Session.authenticated "tok") alwaysOk ["noslash"] =
      DeleteExecution.panicked [] PanicCause.indexOutOfRange := by decide

/-- Claim C4, amended: for every input sequence of identifiers that each
contain a slash, the loop finishes with exactly one DeleteResult per input
identifier, in input order, with no short-circuit on failure, for every
session token and every mix of provider outcomes. -/
theorem C4_amended (repos : List String)
    (h : ∀ r ∈ repos, ('/' : Char) ∈ r.data) (tok : String)
    (provider : String → String → ProviderDeleteResponse) :
    ∃ rs, deleteHandler (Session.authenticated tok) provider repos =
        DeleteExecution.finished rs ∧
      rs.map deleteResultRepo = repos ∧ rs.length = repos.length := by
  induction repos with
  | nil => exact ⟨[], rfl, rfl, rfl⟩
  | cons repo rest ih =>
    obtain ⟨o, n, hs, hitem⟩ :=
      deleteItem_authenticated tok provider repo (h repo (List.mem_cons_self _ _))
    obtain ⟨rs, hrs, hmap, hlen⟩ := ih (fun r hr => h r (List.mem_cons_of_mem _ hr))
    refine ⟨classify repo (provider o n) :: rs, ?_, ?_, ?_⟩
    · simp only [deleteHandler, hitem, hrs]
    · simp [hmap, deleteResultRepo_classify]
    · simp [hlen]

/-- Claim C4, witness: the spec's scenario deleteAll(["alice/repoA",
"bob/repoB"]) under the provider that denies alice with 403 and deletes
bob's repository. -/
theorem C4_witness :
    ∃ rs, deleteHandler (Session.authenticated "tok") scenarioProvider
        ["alice/repoA", "bob/repoB"] = DeleteExecution.finished rs ∧
      rs.map deleteResultRepo = ["alice/repoA", "bob/repoB"] ∧
      rs.length = (["alice/repoA", "bob/repoB"] : List String).length :=
  C4_amended ["alice/repoA", "bob/repoB"] (by decide) "tok" scenarioProvider

/-- Claim C5: deleteHandler classifies every delete outcome as the claim
states: no error yields Deleted; an HTTP 403 yields Forbidden, rendered
with the admin-rights message, and never OtherError; any other error
yields OtherError carrying the provider's raw message. -/
theorem C5_delete_classification (repo msg : String) (status : Nat) :
    classify repo ProviderDeleteResponse.ok = DeleteResult.Deleted repo ∧
    classify repo (ProviderDeleteResponse.httpError 403 msg) = DeleteResult.Forbidden repo ∧
    renderResult (classify repo (ProviderDeleteResponse.httpError 403 msg)) =
      "Failed to delete " ++ repo ++
        ": You must have admin rights to delete this repository.<br>" ∧
    (status ≠ 403 →
      classify repo (ProviderDeleteResponse.httpError status msg) =
        DeleteResult.OtherError repo msg) ∧
    classify repo (ProviderDeleteResponse.transportError msg) =
      DeleteResult.OtherError repo msg ∧
    (∀ r m, classify repo (ProviderDeleteResponse.httpError 403 msg) ≠
      DeleteResult.OtherError r m) := by
  refine ⟨rfl, rfl, rfl, ?_, rfl, ?_⟩
  · intro hst
    simp only [classify]
    rw [if_neg hst]
  · intro r m h
    rw [show classify repo (ProviderDeleteResponse.httpError 403 msg) =
      DeleteResult.Forbidden repo from rfl] at h
    exact DeleteResult.noConfusion h

/-- Claim C5, witness: a 404 is classified as OtherError with the raw
message, a 403 as Forbidden. -/
theorem C5_witness :
    classify "alice/repoA" (ProviderDeleteResponse.httpError 404 "Not Found") =
      DeleteResult.OtherError "alice/repoA" "Not Found" ∧
    classify "alice/repoA" (ProviderDeleteResponse.httpError 403 "Must have admin rights") =
      DeleteResult.Forbidden "alice/repoA" :=
  ⟨(C5_delete_classification "alice/repoA" "Not Found" 404).2.2.2.1 (by decide),
   (C5_delete_classification "alice/repoA" "Must have admin rights" 404).2.1⟩

/-- Claim C6, counterexample: with no environment variables set, the client
ID is empty, yet main still starts serving; at login time the empty client
ID is embedded into the authorize URL. The service does not fail fast at
startup on a missing client ID. -/
theorem C6_counterexample :
    (loadConfig emptyEnv).clientID = "" ∧
    mainStartsServing (loadConfig emptyEnv) = true ∧
    buildAuthorizationURL (loadConfig emptyEnv) =
      "https://github.com/login/oauth/authorize?client_id=&scope=repo,delete_repo&redirect_uri=http://localhost:8989/callback" := by
  decide

/-- Claim C6, amended: main performs no configuration validation at all.
The service starts serving under every environment; a missing
OAUTH_CLIENT_ID merely yields an empty clientID, which surfaces
per-request as an authorize URL with an empty client_id parameter. -/
theorem C6_amended (env : String → Option String) :
    mainStartsServing (loadConfig env) = true ∧
    (env "OAUTH_CLIENT_ID" = none → (loadConfig env).clientID = "") ∧
    (env "OAUTH_CLIENT_ID" = none →
      buildAuthorizationURL (loadConfig env) =
        "https://github.com/login/oauth/authorize?client_id=&scope=repo,delete_repo&redirect_uri=http://localhost:8989/callback") := by
  refine ⟨rfl, ?_, ?_⟩
  · intro hnone
    show (env "OAUTH_CLIENT_ID").getD "" = ""
    rw [hnone]
    rfl
  · intro hnone
    simp only [buildAuthorizationURL, loadConfig, osGetenv, hnone, Option.getD_none]
    decide

/-- Claim C6, witness for the amended statement at the empty environment. -/
theorem C6_witness :
    mainStartsServing (loadConfig emptyEnv) = true ∧
    (loadConfig emptyEnv).clientID = "" :=
  ⟨(C6_amended emptyEnv).1, (C6_amended emptyEnv).2.1 rfl⟩

/-- Claim C7: hasPrev is false exactly when the provider's previous-page
indicator is 0, symmetrically for hasNext, and the scenario prevPage=2,
nextPage=0 yields hasPrev=true, hasNext=false. -/
theorem C7_pagination (names : List String) (prev next : Nat) :
    ((mkPageData names prev next).hasPrev = false ↔ prev = 0) ∧
    ((mkPageData names prev next).hasNext = false ↔ next = 0) ∧
    (mkPageData names 2 0).hasPrev = true ∧
    (mkPageData names 2 0).hasNext = false := by
  refine ⟨?_, ?_, rfl, rfl⟩
  · simp only [mkPageData, decide_eq_false_iff_not]
    omega
  · simp only [mkPageData, decide_eq_false_iff_not]
    omega

/-- Claim C8: a callback whose request carries no code parameter (the query
lookup yields the empty string) answers "Code not found" with the client
error status 400 and leaves the session unchanged, for every provider
response and every prior session; no token exchange is attempted. -/
theorem C8_missing_code (resp : Option (List (String × JsonValue))) (s : Session) :
    callbackHandler "" resp s = (CallbackResult.clientError "Code not found" 400, s) := rfl

/-- Claim C9: logout unconditionally clears the session: afterwards
isAuthenticated is false, two consecutive logouts equal one, and a logout
on an already-unauthenticated session is a no-op. -/
theorem C9_logout_idempotent (s : Session) :
    isAuthenticated (logoutHandler s) = false ∧
    logoutHandler (logoutHandler s) = logoutHandler s ∧
    (isAuthenticated s = false → logoutHandler s = s) := by
  refine ⟨rfl, rfl, ?_⟩
  intro h
  cases s with
  | unauthenticated => rfl
  | authenticated t => simp [isAuthenticated] at h

/-- Claim C9, witness at the unauthenticated session. -/
theorem C9_witness :
    isAuthenticated (logoutHandler Session.unauthenticated) = false ∧
    logoutHandler Session.unauthenticated = Session.unauthenticated :=
  ⟨(C9_logout_idempotent Session.unauthenticated).1,
   (C9_logout_idempotent Session.unauthenticated).2.2 rfl⟩

/-- Claim C10, counterexample: a delete request with the cleared session and
the single selected identifier "noslash" panics on the parts[1] index
before ever touching the client, so not every such request dereferences
the nil client handle. -/
theorem C10_counterexample :
    deleteHandler Session.unauthenticated alwaysOk ["noslash"] =
      DeleteExecution.panicked [] PanicCause.indexOutOfRange ∧
    PanicCause.indexOutOfRange ≠ PanicCause.nilClientDereference := by decide

/-- Claim C10, amended: deleteHandler performs no authentication check:
whenever the session is cleared and the first selected identifier contains
a slash, the loop dereferences the nil client handle at the first delete
call and the request dies with no per-item outcome, instead of failing
with Unauthenticated. -/
theorem C10_amended (repo : String) (h : ('/' : Char) ∈ repo.data)
    (rest : List String) (provider : String → String → ProviderDeleteResponse) :
    deleteHandler Session.unauthenticated provider (repo :: rest) =
      DeleteExecution.panicked [] PanicCause.nilClientDereference := by
  obtain ⟨o, n, hs⟩ := splitRepo_eq_some repo h
  have hitem : deleteItem Session.unauthenticated provider repo =
      Except.error PanicCause.nilClientDereference := by
    unfold deleteItem
    rw [hs]
  simp only [deleteHandler, hitem]

/-- Claim C10, witness for the amended statement: a logged-out delete of
"alice/repoA" dereferences the nil client. -/
theorem C10_witness :
    deleteHandler Session.unauthenticated alwaysOk ["alice/repoA"] =
      DeleteExecution.panicked [] PanicCause.nilClientDereference :=
  C10_amended "alice/repoA" (by decide) [] alwaysOk

end GoAndDelete
